import Mathlib

/-!
Verification development for the header-probing CLI in `src/utils/llm_probe.py`.

The program is embedded shallowly: every pure text operation of the Python
source is translated to an executable Lean function over `List Char` /
`String`, and the three external effects the program performs — the stdlib
calls `json.loads` and `ast.literal_eval`, and the two HTTP requests issued
through `httpx` — are supplied as explicit oracle parameters (a function
`String → Except String PyVal` models a stdlib parser that either returns a
Python value or raises an exception carrying a message; an `HttpOracle`
models the two responses of the probed server). Python dictionaries are
modelled as insertion-ordered association lists with last-write-wins update,
which is exactly the observable behaviour of `dict` for string keys.
-/

/- ### Character and string primitives (Python `str` operations) -/

/-- Left brace character, written via its code point. -/
def lbraceC : Char := Char.ofNat 123

/-- Right brace character, written via its code point. -/
def rbraceC : Char := Char.ofNat 125

/-- Double-quote character, written via its code point. -/
def dquoteC : Char := Char.ofNat 34

/-- Single-quote character, written via its code point. -/
def squoteC : Char := Char.ofNat 39

/-- Whitespace characters recognised by Python `str.strip()` (ASCII range). -/
def isPyWs (c : Char) : Bool :=
  c == ' ' || c == '\t' || c == '\n' || c == '\r' || c == Char.ofNat 11 || c == Char.ofNat 12

/-- Python `s.strip()`: drop whitespace from both ends of the string. -/
def pyStrip (s : String) : String :=
  ⟨((s.data.dropWhile isPyWs).reverse.dropWhile isPyWs).reverse⟩

/-- Python `s.strip('"')` as applied after `s.strip()` in `load_env_file`:
drop every leading and trailing double-quote character. -/
def stripDQuotes (s : String) : String :=
  ⟨((s.data.dropWhile (· == dquoteC)).reverse.dropWhile (· == dquoteC)).reverse⟩

/-- Python `s.rstrip("/")`: drop every trailing slash. -/
def rstripSlashes (s : String) : String :=
  ⟨(s.data.reverse.dropWhile (· == '/')).reverse⟩

/-- Python `s.split(sep)` for a one-character separator: splits at every
occurrence and keeps empty fields, so `"".split(",") = [""]`. -/
def splitOnChar (sep : Char) : List Char → List (List Char)
  | [] => [[]]
  | c :: rest =>
    let r := splitOnChar sep rest
    if c == sep then [] :: r
    else
      match r with
      | h :: t => (c :: h) :: t
      | [] => [[c]]

/-- Python `s.split(sep, 1)` for a one-character separator, combined with the
membership test that guards it in the source: `some (before, after)` at the
first occurrence of `sep`, `none` when `sep` does not occur. -/
def splitFirst (sep : Char) : List Char → Option (List Char × List Char)
  | [] => none
  | c :: rest =>
    if c == sep then some ([], rest)
    else (splitFirst sep rest).map (fun p => (c :: p.1, p.2))

/-- Whether a needle occurs at the head of a character list. -/
def headMatch : List Char → List Char → Bool
  | [], _ => true
  | _ :: _, [] => false
  | a :: as, b :: bs => a == b && headMatch as bs

/-- Whether a needle occurs anywhere in a character list; models Python
substring containment, including the convention that the empty needle is
contained in everything. -/
def subOf (n : List Char) : List Char → Bool
  | [] => headMatch n []
  | c :: rest => headMatch n (c :: rest) || subOf n rest

/-- Python `needle in hay` for strings. -/
def strIn (needle hay : String) : Bool := subOf needle.data hay.data

/-- ASCII lowercasing of one character, as Python `str.lower` acts on the
ASCII range (the inputs compared in the source are ASCII needles). -/
def lowerChar (c : Char) : Char :=
  if 65 ≤ c.toNat ∧ c.toNat ≤ 90 then Char.ofNat (c.toNat + 32) else c

/-- Python `s.lower()` restricted to ASCII case mapping. -/
def toLowerS (s : String) : String := ⟨s.data.map lowerChar⟩

/-- Replace a newline by a space, the transformation `replace("\n", " ")`
applies pointwise. -/
def nlToSpace (c : Char) : Char := if c == '\n' then ' ' else c

/-- Whether the first character of a string is `c`; models Python
`s.startswith` for a one-character pattern. -/
def headIs (c : Char) (s : String) : Bool :=
  match s.data with
  | x :: _ => x == c
  | [] => false

/-- Whether the last character of a string is `c`; models Python
`s.endswith` for a one-character pattern. -/
def lastIs (c : Char) (s : String) : Bool :=
  match s.data.getLast? with
  | some x => x == c
  | none => false

/- ### Python dictionaries as insertion-ordered association lists -/

/-- Lookup in a Python dict: the value stored at key `k`, if any. -/
def dictGet (k : String) : List (String × String) → Option String
  | [] => none
  | p :: rest => if p.1 = k then some p.2 else dictGet k rest

/-- Python `d[k] = v`: update in place when the key exists, otherwise append
at the end (insertion order). -/
def dictSet : List (String × String) → String → String → List (String × String)
  | [], k, v => [(k, v)]
  | p :: rest, k, v => if p.1 = k then (p.1, v) :: rest else p :: dictSet rest k v

/-- Python `d.setdefault(k, v)`: insert only when the key is absent. -/
def dictSetdefault (d : List (String × String)) (k v : String) : List (String × String) :=
  match dictGet k d with
  | some _ => d
  | none => d ++ [(k, v)]

/-- Building a dict from a pair list by successive assignment; models the
`dict(...)` constructor. On a list with distinct keys it is the identity. -/
def normalizePairs (l : List (String × String)) : List (String × String) :=
  l.foldl (fun d p => dictSet d p.1 p.2) []

/-- First-defined combination of optional values (Python `or` on options). -/
def orO (a b : Option String) : Option String :=
  match a with
  | some x => some x
  | none => b

/- ### Python values returned by the stdlib parsers -/

/-- The Python values relevant to the program, as returned by `json.loads`
or `ast.literal_eval`. -/
inductive PyVal where
  | str (s : String)
  | int (n : Int)
  | bool (b : Bool)
  | pynone
  | list (xs : List PyVal)
  | dict (kvs : List (PyVal × PyVal))

/-- Extract the pairs of a dict whose keys and values are all strings;
`none` when any key or value is not a string. -/
def strPairs : List (PyVal × PyVal) → Option (List (String × String))
  | [] => some []
  | (PyVal.str k, PyVal.str v) :: rest => (strPairs rest).map (fun l => (k, v) :: l)
  | _ => none

/-- The check `isinstance(data, dict) and all strings` of line 61, returning
the extracted mapping on success. -/
def pyvalStrPairs : PyVal → Option (List (String × String))
  | PyVal.dict kvs => strPairs kvs
  | _ => none

/- ### parse_headers (lines 26-63 of the source) -/

/-- Error message of line 62: the candidate value is not an all-string
mapping. -/
def headersValidMsg : String :=
  "headers 必须是 JSON 对象，且键/值都为字符串，例如：\x7b\"User-Agent\":\"Mozilla/5.0\"\x7d"

/-- Validation of lines 61-63 followed by the final `return dict(data)`:
accept only a dict with all-string keys and values and copy it. -/
def validateHeaders (data : PyVal) : Except String (List (String × String)) :=
  match pyvalStrPairs data with
  | some l => Except.ok (normalizePairs l)
  | none => Except.error headersValidMsg

/-- The shape test of line 34: wrapped in braces after stripping, and free of
both quote characters. -/
def braceShape (stripped : String) : Bool :=
  headIs lbraceC stripped && lastIs rbraceC stripped &&
    !(stripped.data.contains dquoteC) && !(stripped.data.contains squoteC)

/-- Error message of line 48 for a brace-list item with no separator. -/
def braceItemErrMsg (part : String) : String := "无法解析 header 项: " ++ part

/-- The loop of lines 39-49: process the comma-separated parts in order,
stripping each, skipping empties, splitting on the first colon (else the
first equals sign) and assigning into the accumulated dict. -/
def braceFold : List (String × String) → List (List Char) →
    Except String (List (String × String))
  | acc, [] => Except.ok acc
  | acc, p :: rest =>
    let part := pyStrip ⟨p⟩
    if part = "" then braceFold acc rest
    else
      match splitFirst ':' part.data with
      | some kv => braceFold (dictSet acc (pyStrip ⟨kv.1⟩) (pyStrip ⟨kv.2⟩)) rest
      | none =>
        match splitFirst '=' part.data with
        | some kv => braceFold (dictSet acc (pyStrip ⟨kv.1⟩) (pyStrip ⟨kv.2⟩)) rest
        | none => Except.error (braceItemErrMsg part)

/-- The 120-character snippet of line 56: newlines replaced by spaces, then
truncated. -/
def snippet120 (raw : String) : String := ⟨(raw.data.map nlToSpace).take 120⟩

/-- The JSON usage example embedded in the error message of lines 57-60. -/
def jsonExample : String :=
  "\x7b\"User-Agent\":\"Mozilla/5.0\",\"Accept\":\"application/json\"\x7d"

/-- The error message of lines 57-60, raised when every parse strategy has
failed; `e` is the string form of the literal-evaluation exception. -/
def parseFailMsg (e raw : String) : String :=
  "headers 解析失败：" ++ e ++ ". 你传入的是：" ++ snippet120 raw ++
    "...；请使用 JSON，例如：" ++ jsonExample

/-- Embedding of `parse_headers` (lines 26-63). The stdlib parsers
`json.loads` and `ast.literal_eval` are external to the repository and are
passed as the oracles `jl` and `le`: `Except.ok` is a successful parse,
`Except.error` a raised exception carrying its message. The brace-list path
produces a dict of strings, for which the validation of line 61 is
trivially satisfied, so its result is returned directly. -/
def parse_headers (jl le : String → Except String PyVal) (raw : Option String) :
    Except String (List (String × String)) :=
  match raw with
  | none => Except.ok []
  | some s =>
    if s = "" then Except.ok []
    else
      match jl s with
      | Except.ok data => validateHeaders data
      | Except.error _ =>
        let stripped := pyStrip s
        if braceShape stripped then
          let inner := pyStrip ⟨(stripped.data.drop 1).dropLast⟩
          if inner = "" then Except.ok []
          else braceFold [] (splitOnChar ',' inner.data)
        else
          match le s with
          | Except.ok data => validateHeaders data
          | Except.error e => Except.error (parseFailMsg e s)

/- ### summarize_body (lines 66-70) -/

/-- Embedding of `summarize_body`: replace newlines by spaces, strip both
ends, and truncate to `limit` characters with a trailing ellipsis when the
text is longer than `limit`. (`text or ""` is the identity on strings.) -/
def summarize_body (text : String) (limit : Nat) : String :=
  let t := pyStrip ⟨text.data.map nlToSpace⟩
  if limit < t.data.length then ⟨t.data.take limit⟩ ++ "..." else t

/- ### load_env_file (lines 12-23) -/

/-- The process environment, a mapping from variable names to values. -/
abbrev Env := List (String × String)

/-- Processing of one line of the env file (lines 17-23): strip, skip blank
lines, comment lines and lines without an equals sign; otherwise split on
the first equals sign, strip the key, strip whitespace then double quotes
from the value, and set the variable only if currently unset. -/
def processEnvLine (env : Env) (line : String) : Env :=
  let l := pyStrip line
  if l = "" then env
  else if headIs '#' l then env
  else
    match splitFirst '=' l.data with
    | none => env
    | some kv => dictSetdefault env (pyStrip ⟨kv.1⟩) (stripDQuotes (pyStrip ⟨kv.2⟩))

/-- Embedding of `load_env_file`: the file is given as its list of lines
(`none` when the file does not exist, in which case nothing happens); the
reading and line-splitting of the file are stdlib operations outside the
program logic. -/
def load_env_file (fileLines : Option (List String)) (env : Env) : Env :=
  match fileLines with
  | none => env
  | some ls => ls.foldl processEnvLine env

/- ### main (lines 73-160) -/

/-- The parsed command-line arguments of the program. -/
structure Args where
  base_url : Option String
  model : Option String
  headers : Option String
  header : List String
  prompt_key : Bool

/-- An HTTP response as observed by the program: status code, content-type
header and body text. -/
structure HttpResponse where
  status : Nat
  contentType : String
  body : String

/-- Outcome of one HTTP call: a response, or a transport exception whose
string form is printed. -/
inductive HttpResult where
  | ok (r : HttpResponse)
  | exn (e : String)

/-- The behaviour of the probed server for the two requests the program can
issue. -/
structure HttpOracle where
  getModels : HttpResult
  postChat : HttpResult

/-- The kind of an HTTP request attempted by the program. -/
inductive RequestKind where
  | getModels
  | postChat
deriving DecidableEq

/-- Observable outcome of a run of `main`: process exit code, lines printed
to standard output, HTTP requests attempted (in order), and the header
mapping the HTTP client was built with, when one was. -/
structure MainResult where
  exitCode : Nat
  printed : List String
  requests : List RequestKind
  sentHeaders : Option (List (String × String))

/-- Python `a or b` where `a` is an optional string and `b` a string: the
flag wins unless it is absent or empty. -/
def pyOrS (a : Option String) (b : String) : String :=
  match a with
  | some s => if s = "" then b else s
  | none => b

/-- Python `a or b` on two optional strings (line 99). -/
def pyOrOpt (a b : Option String) : Option String :=
  match a with
  | some s => if s = "" then b else some s
  | none => b

/-- Python `os.getenv(k, d)` over the modelled environment. -/
def getenvD (env : Env) (k d : String) : String := (dictGet k env).getD d

/-- The environment after `load_env_file` has filled unset keys (line 90). -/
def resolvedEnv (env0 : Env) (envFile : Option (List String)) : Env :=
  load_env_file envFile env0

/-- Resolution of `base_url` (line 92): flag, else `MODEL_BASE_URL`, else
empty; trailing slashes stripped. -/
def resolvedBaseUrl (args : Args) (env0 : Env) (envFile : Option (List String)) : String :=
  rstripSlashes (pyOrS args.base_url (getenvD (resolvedEnv env0 envFile) "MODEL_BASE_URL" ""))

/-- Resolution of `model` (line 93): flag, else `MODEL_NAME`, else empty. -/
def resolvedModel (args : Args) (env0 : Env) (envFile : Option (List String)) : String :=
  pyOrS args.model (getenvD (resolvedEnv env0 envFile) "MODEL_NAME" "")

/-- Resolution of `api_key` (lines 94-97): `API_KEY` from the environment;
when empty and `--prompt-key` was given, the stripped interactive input. -/
def resolvedApiKey (args : Args) (env0 : Env) (envFile : Option (List String))
    (gp : String) : String :=
  let k := getenvD (resolvedEnv env0 envFile) "API_KEY" ""
  if k = "" ∧ args.prompt_key then pyStrip gp else k

/-- The raw header specification handed to `parse_headers` (line 99):
the `--headers` flag, else `MODEL_DEFAULT_HEADERS` when set. -/
def resolvedRawHeaders (args : Args) (env0 : Env) (envFile : Option (List String)) :
    Option String :=
  pyOrOpt args.headers (dictGet "MODEL_DEFAULT_HEADERS" (resolvedEnv env0 envFile))

/-- Error message of line 109 for a `--header` flag without separator. -/
def flagFormatErrMsg : String := "--header 格式应为 Key:Value 或 Key=Value"

/-- The `--header` loop of lines 100-110: strip each flag value, skip empty
ones, split on the first colon (else the first equals sign), strip key and
value and assign into the mapping; raise on a non-empty flag with neither
separator. -/
def applyHeaderFlags : List (String × String) → List String →
    Except String (List (String × String))
  | init, [] => Except.ok init
  | init, item :: rest =>
    let it := pyStrip item
    if it = "" then applyHeaderFlags init rest
    else
      match splitFirst ':' it.data with
      | some kv => applyHeaderFlags (dictSet init (pyStrip ⟨kv.1⟩) (pyStrip ⟨kv.2⟩)) rest
      | none =>
        match splitFirst '=' it.data with
        | some kv => applyHeaderFlags (dictSet init (pyStrip ⟨kv.1⟩) (pyStrip ⟨kv.2⟩)) rest
        | none => Except.error flagFormatErrMsg

/-- Header finalisation of lines 119-122: copy the extra headers, default
`Accept` and `User-Agent` only when absent, then overwrite `Authorization`
unconditionally with the bearer token. -/
def finalizeHeaders (extra : List (String × String)) (api_key : String) :
    List (String × String) :=
  dictSet
    (dictSetdefault (dictSetdefault extra "Accept" "application/json")
      "User-Agent" "Mozilla/5.0")
    "Authorization" ("Bearer " ++ api_key)

/-- The WAF/CDN heuristic of line 153: HTML content-type and a body excerpt
containing a blocked marker, all case-insensitively. -/
def wafHeuristic (ct body : String) : Bool :=
  let bh := summarize_body body 400
  strIn "text/html" (toLowerS ct) &&
    (strIn "blocked" (toLowerS bh) || strIn "request was blocked" (toLowerS bh))

/-- Guidance message printed at line 113 when `base_url` is missing. -/
def noBaseUrlMsg : String := "缺少 base_url：请传 --base-url 或设置 MODEL_BASE_URL"

/-- Guidance message printed at line 116 when `api_key` is missing. -/
def noApiKeyMsg : String := "缺少 API_KEY：请设置环境变量 API_KEY，或加 --prompt-key"

/-- The WAF diagnostic line printed at line 154. -/
def wafLine : String := "=> 看起来是 WAF/Cloudflare 拦截（返回了 HTML 且包含 blocked 字样）"

/-- Message of line 158 when no model was resolved. -/
def skipChatMsg : String := "未指定 model：跳过 /chat/completions（可用 --model 或设置 MODEL_NAME）"

/-- Lines 112-160 of `main`, after configuration resolution and header
parsing: the missing-configuration exits, the resolved-configuration report,
and the two best-effort probes with their printed diagnostics. -/
def mainAfterHeaders (base_url model api_key : String)
    (extra : List (String × String)) (oracle : HttpOracle) : MainResult :=
  if base_url = "" then
    { exitCode := 2, printed := [noBaseUrlMsg], requests := [], sentHeaders := none }
  else if api_key = "" then
    { exitCode := 2, printed := [noApiKeyMsg], requests := [], sentHeaders := none }
  else
    let headers := finalizeHeaders extra api_key
    let pre := ["base_url: " ++ base_url,
                "model: " ++ (if model = "" then "(未指定)" else model),
                "extra_headers: " ++ (if extra.isEmpty then "off" else "on")]
    let mlines :=
      match oracle.getModels with
      | HttpResult.ok r =>
        ["/models status: " ++ toString r.status,
         "/models content-type: " ++ r.contentType,
         "/models body(head): " ++ summarize_body r.body 400]
      | HttpResult.exn e => ["/models error: " ++ e]
    if model = "" then
      { exitCode := 0, printed := pre ++ mlines ++ [skipChatMsg],
        requests := [RequestKind.getModels], sentHeaders := some headers }
    else
      let clines :=
        match oracle.postChat with
        | HttpResult.ok r =>
          let base := ["/chat/completions status: " ++ toString r.status,
                       "/chat/completions content-type: " ++ r.contentType,
                       "/chat/completions body(head): " ++ summarize_body r.body 400]
          if wafHeuristic r.contentType r.body then base ++ [wafLine] else base
        | HttpResult.exn e => ["/chat/completions error: " ++ e]
      { exitCode := 0, printed := pre ++ mlines ++ clines,
        requests := [RequestKind.getModels, RequestKind.postChat],
        sentHeaders := some headers }

/-- Embedding of `main` (lines 73-160): resolve configuration, parse the
bulk header specification and the repeated `--header` flags — an exception
raised there propagates as `Except.error` and aborts the run — then run the
checked and probing tail. -/
def mainModel (args : Args) (env0 : Env) (envFile : Option (List String))
    (gp : String) (jl le : String → Except String PyVal) (oracle : HttpOracle) :
    Except String MainResult :=
  match parse_headers jl le (resolvedRawHeaders args env0 envFile) with
  | Except.error e => Except.error e
  | Except.ok extra0 =>
    match applyHeaderFlags extra0 args.header with
    | Except.error e => Except.error e
    | Except.ok extra =>
      Except.ok (mainAfterHeaders (resolvedBaseUrl args env0 envFile)
        (resolvedModel args env0 envFile)
        (resolvedApiKey args env0 envFile gp) extra oracle)

/- ### Spec-side definitions, written from the specification's wording -/

/-- Spec-side brace-list item processing, following the wording of claim C1
as amended: trim each comma-separated item, skip empty items, split each
remaining item on the first colon or — when the colon is absent — the first
equals sign, trim key and value, later items overriding earlier ones; a
non-empty item with neither separator is a fatal error. -/
def specItems : List (String × String) → List String →
    Except String (List (String × String))
  | acc, [] => Except.ok acc
  | acc, it :: rest =>
    if it = "" then specItems acc rest
    else
      match splitFirst ':' it.data with
      | some kv => specItems (dictSet acc (pyStrip ⟨kv.1⟩) (pyStrip ⟨kv.2⟩)) rest
      | none =>
        match splitFirst '=' it.data with
        | some kv => specItems (dictSet acc (pyStrip ⟨kv.1⟩) (pyStrip ⟨kv.2⟩)) rest
        | none => Except.error (braceItemErrMsg it)

/-- Spec-side description of the whole brace-list strategy: drop the
enclosing braces, trim, and process the comma-separated items. -/
def specBraceList (stripped : String) : Except String (List (String × String)) :=
  let inner := pyStrip ⟨(stripped.data.drop 1).dropLast⟩
  if inner = "" then Except.ok []
  else specItems [] ((splitOnChar ',' inner.data).map (fun l => pyStrip ⟨l⟩))

/-- The key/value a single `--header` flag denotes, per the specification's
wording: trim, split on the first colon, else the first equals sign, trim
key and value; `none` for a flag with neither separator (including blank
flags). -/
def flagKV (item : String) : Option (String × String) :=
  let it := pyStrip item
  match splitFirst ':' it.data with
  | some kv => some (pyStrip ⟨kv.1⟩, pyStrip ⟨kv.2⟩)
  | none =>
    match splitFirst '=' it.data with
    | some kv => some (pyStrip ⟨kv.1⟩, pyStrip ⟨kv.2⟩)
    | none => none

/-- The value flag `item` assigns to key `k`, if any. -/
def flagDefines (k : String) (item : String) : Option String :=
  match flagKV item with
  | some kv => if kv.1 = k then some kv.2 else none
  | none => none

/-- First flag in the list defining `k`, if any. -/
def firstDefined (k : String) : List String → Option String
  | [] => none
  | f :: rest =>
    match flagDefines k f with
    | some v => some v
    | none => firstDefined k rest

/-- The value the LAST flag defining `k` assigns, per the specification's
last-wins wording. -/
def lastFlagValue (flags : List String) (k : String) : Option String :=
  firstDefined k flags.reverse

/-- A flag the amended claim C3 accepts: blank (skipped) or carrying a
separator. -/
def flagOk (item : String) : Bool := pyStrip item == "" || (flagKV item).isSome

/-- Map every whitespace character to a plain space. -/
def wsToSpace (c : Char) : Char := if isPyWs c then ' ' else c

/-- Collapse consecutive spaces to a single space. -/
def dedupSpace : List Char → List Char
  | [] => []
  | [c] => [c]
  | a :: b :: rest =>
    if a == ' ' && b == ' ' then dedupSpace (b :: rest)
    else a :: dedupSpace (b :: rest)

/-- Spec-side reading of a whitespace-collapsed text: every whitespace
character becomes a space, runs of spaces collapse to one, ends trimmed. -/
def specCollapse (s : String) : String := pyStrip ⟨dedupSpace (s.data.map wsToSpace)⟩

/-- The body excerpt as claim C9 literally states it: the
whitespace-collapsed text, truncated to 400 characters with a trailing
ellipsis exactly when it exceeds 400 characters. -/
def specSummarize (text : String) : String :=
  let c := specCollapse text
  if 400 < c.data.length then ⟨c.data.take 400⟩ ++ "..." else c

/-- The body excerpt as claim C9 amended states it: newlines replaced by
spaces and ends trimmed, truncated to 400 characters with a trailing
ellipsis exactly when that text exceeds 400 characters. -/
def specSummarizeAmended (text : String) : String :=
  let t := pyStrip ⟨text.data.map nlToSpace⟩
  if 400 < t.data.length then ⟨t.data.take 400⟩ ++ "..." else t

/- ### Concrete oracles used by witnesses and counterexamples.
They record what the stdlib parsers actually do on the concrete inputs of
the witnesses: `json.loads` raises `json.JSONDecodeError` on every non-JSON
input used below, and `ast.literal_eval` raises on non-literal text. -/

/-- A json.loads oracle that rejects its input, as the stdlib does on every
non-JSON header string used in the witnesses below. -/
def jlAlwaysErr : String → Except String PyVal :=
  fun _ => Except.error "Expecting value: line 1 column 1 (char 0)"

/-- An ast.literal_eval oracle that rejects its input, as the stdlib does on
non-literal text. -/
def leAlwaysErr : String → Except String PyVal :=
  fun _ => Except.error "invalid syntax (<unknown>, line 1)"

/-- A json.loads oracle returning the all-string object that the serialised
witness mapping of claim C2 denotes. -/
def jlConstUA : String → Except String PyVal :=
  fun _ => Except.ok (PyVal.dict [(PyVal.str "User-Agent", PyVal.str "Mozilla/5.0")])

/-- A json.loads oracle returning a syntactically valid JSON object whose
value is not a string (claim C10's witness). -/
def jlNonStrDict : String → Except String PyVal :=
  fun _ => Except.ok (PyVal.dict [(PyVal.str "X", PyVal.int 1)])

/-- A literal-eval oracle that would succeed; used to show the validation
error of claim C10 is raised without consulting the fallback. -/
def leEmptyDict : String → Except String PyVal :=
  fun _ => Except.ok (PyVal.dict [])

/-- Arguments for claim C4's counterexample: no base URL and an unparseable
bulk header specification. -/
def cxArgs : Args :=
  { base_url := none, model := none, headers := some "not json at all",
    header := [], prompt_key := false }

/-- Arguments for claim C4's witness: no base URL, nothing else set. -/
def wArgs : Args :=
  { base_url := none, model := none, headers := none, header := [],
    prompt_key := false }

/-- An HTTP oracle for runs that never reach the network. -/
def cxOracle : HttpOracle := { getModels := HttpResult.exn "unused", postChat := HttpResult.exn "unused" }

/-- A chat response with an HTML block page (claim C8's witness). -/
def respHtmlBlocked : HttpResponse :=
  { status := 403, contentType := "text/html; charset=utf-8",
    body := "<html>Request was blocked</html>" }

/-- A JSON chat response that mentions the word blocked (claim C8's
witness). -/
def respJsonBlocked : HttpResponse :=
  { status := 200, contentType := "application/json",
    body := "\x7b\"note\": \"blocked\"\x7d" }

/-- Oracle whose chat probe returns the HTML block page. -/
def oracleHtml : HttpOracle :=
  { getModels := HttpResult.exn "e", postChat := HttpResult.ok respHtmlBlocked }

/-- Oracle whose chat probe returns the JSON response. -/
def oracleJson : HttpOracle :=
  { getModels := HttpResult.exn "e", postChat := HttpResult.ok respJsonBlocked }

/- ### Helper lemmas -/

/-- Appending strings appends their character data. -/
theorem strApp_data (a b : String) : (a ++ b).data = a.data ++ b.data := by
  cases a
  cases b
  rfl

/-- A needle matches at the head of itself followed by anything. -/
theorem headMatch_self_append (n t : List Char) : headMatch n (n ++ t) = true := by
  induction n with
  | nil => rfl
  | cons a as ih => simp [headMatch, ih]

/-- A needle occurs in itself followed by anything. -/
theorem subOf_here (n t : List Char) : subOf n (n ++ t) = true := by
  cases n with
  | nil =>
    cases t with
    | nil => rfl
    | cons c r => simp [subOf, headMatch]
  | cons a as =>
    have h := headMatch_self_append (a :: as) t
    simp only [List.cons_append] at h ⊢
    simp [subOf, h]

/-- Occurrence is stable under prepending text. -/
theorem subOf_append_left (n x y : List Char) (h : subOf n y = true) :
    subOf n (x ++ y) = true := by
  induction x with
  | nil => exact h
  | cons c rest ih => simp [subOf, ih]

/-- A needle matches at the head of every extension of a matched text. -/
theorem headMatch_extend (n h y : List Char) (hm : headMatch n h = true) :
    headMatch n (h ++ y) = true := by
  induction n generalizing h with
  | nil => rfl
  | cons a as ih =>
    cases h with
    | nil => cases hm
    | cons b bs =>
      simp only [headMatch, Bool.and_eq_true, beq_iff_eq] at hm
      simp only [List.cons_append, headMatch, Bool.and_eq_true, beq_iff_eq]
      exact ⟨hm.1, ih bs hm.2⟩

/-- Occurrence is stable under appending text. -/
theorem subOf_append_right (n x y : List Char) (h : subOf n x = true) :
    subOf n (x ++ y) = true := by
  induction x with
  | nil =>
    cases n with
    | nil =>
      cases y with
      | nil => rfl
      | cons c r => simp [subOf, headMatch]
    | cons a as => cases h
  | cons c rest ih =>
    simp only [subOf, Bool.or_eq_true] at h
    rcases h with hm | hs
    · simp only [List.cons_append, subOf, Bool.or_eq_true]
      exact Or.inl (by simpa using headMatch_extend n (c :: rest) y hm)
    · simp only [List.cons_append, subOf, Bool.or_eq_true]
      exact Or.inr (ih hs)

/-- A needle matches itself. -/
theorem headMatch_self (n : List Char) : headMatch n n = true := by
  induction n with
  | nil => rfl
  | cons a as ih => simp [headMatch, ih]

/-- A needle occurs in itself. -/
theorem subOf_self (n : List Char) : subOf n n = true := by
  cases n with
  | nil => rfl
  | cons a as => simp [subOf, headMatch_self]

/-- Looking up in a concatenation tries the left part first. -/
theorem dictGet_append (k : String) (a b : List (String × String)) :
    dictGet k (a ++ b) = orO (dictGet k a) (dictGet k b) := by
  induction a with
  | nil => rfl
  | cons p rest ih =>
    by_cases hp : p.1 = k <;> simp [dictGet, hp, ih, orO]

/-- Assignment at key `k` determines the lookup at `k` and nothing else. -/
theorem dictGet_dictSet (k k0 v : String) (d : List (String × String)) :
    dictGet k (dictSet d k0 v) = if k0 = k then some v else dictGet k d := by
  induction d with
  | nil => simp [dictSet, dictGet]
  | cons p rest ih =>
    by_cases hp : p.1 = k0
    · subst hp
      by_cases hk : p.1 = k <;> simp [dictSet, dictGet, hk]
    · by_cases hk : p.1 = k
      · subst hk
        have hne : ¬ k0 = p.1 := fun he => hp he.symm
        simp [dictSet, hp, dictGet, hne]
      · simp [dictSet, hp, dictGet, hk, ih]

/-- Setdefault defaults the lookup at its key and changes nothing else. -/
theorem dictGet_dictSetdefault (k k0 v : String) (d : List (String × String)) :
    dictGet k (dictSetdefault d k0 v) =
      if k0 = k then some ((dictGet k0 d).getD v) else dictGet k d := by
  unfold dictSetdefault
  rcases hd : dictGet k0 d with _ | w
  · rw [dictGet_append]
    by_cases hk : k0 = k
    · subst hk
      simp [hd, dictGet, orO]
    · simp [hk, dictGet, orO]
      cases dictGet k d <;> simp [orO]
  · by_cases hk : k0 = k
    · subst hk
      simp [hd]
    · simp [hk]

/-- Assignment at an absent key appends the pair. -/
theorem dictSet_of_absent (d : List (String × String)) (k v : String)
    (h : dictGet k d = none) : dictSet d k v = d ++ [(k, v)] := by
  induction d with
  | nil => rfl
  | cons p rest ih =>
    by_cases hp : p.1 = k
    · simp [dictGet, hp] at h
    · simp only [dictGet, hp, if_neg] at h
      simp [dictSet, hp, ih h]

/-- Building a dict from pairs with fresh, distinct keys appends them. -/
theorem foldl_dictSet_disjoint (m : List (String × String)) :
    ∀ acc, (∀ p ∈ m, dictGet p.1 acc = none) → (m.map Prod.fst).Nodup →
      m.foldl (fun d p => dictSet d p.1 p.2) acc = acc ++ m := by
  induction m with
  | nil => intro acc _ _; simp
  | cons q rest ih =>
    intro acc hdisj hnd
    simp only [List.foldl_cons]
    rw [dictSet_of_absent acc q.1 q.2 (hdisj q (by simp))]
    simp only [List.map_cons, List.nodup_cons] at hnd
    rw [ih (acc ++ [(q.1, q.2)]) ?_ hnd.2]
    · simp
    · intro p hp
      rw [dictGet_append, hdisj p (by simp [hp])]
      have hq : ¬ q.1 = p.1 := by
        intro he
        exact hnd.1 (he ▸ List.mem_map_of_mem Prod.fst hp)
      simp [orO, dictGet, hq]

/-- Constructing a dict from a pair list with distinct keys is the
identity. -/
theorem normalizePairs_eq_self (m : List (String × String))
    (h : (m.map Prod.fst).Nodup) : normalizePairs m = m := by
  have := foldl_dictSet_disjoint m [] (fun p _ => rfl) h
  simpa [normalizePairs] using this

/-- The all-string check succeeds on an image of string pairs and recovers
them. -/
theorem strPairs_map (m : List (String × String)) :
    strPairs (m.map (fun p => (PyVal.str p.1, PyVal.str p.2))) = some m := by
  induction m with
  | nil => rfl
  | cons p rest ih => simp [strPairs, ih]

/-- Two strings with distinct head characters differ, whatever follows the
first head. -/
theorem append_ne_of_head (p s q : String) (c d : Char)
    (hp : p.data.head? = some c) (hq : q.data.head? = some d) (hcd : c ≠ d) :
    p ++ s ≠ q := by
  intro h
  have hdata : p.data ++ s.data = q.data := by rw [← strApp_data, h]
  cases hpd : p.data with
  | nil => rw [hpd] at hp; cases hp
  | cons a t =>
    rw [hpd] at hp hdata
    have ha : a = c := by
      have : some a = some c := hp
      exact Option.some.inj this
    rw [← hdata] at hq
    have hd : a = d := by
      have : some a = some d := hq
      exact Option.some.inj this
    exact hcd (ha ▸ hd ▸ rfl)

/-- Combination with no right value is the identity. -/
theorem orO_none_right (a : Option String) : orO a none = a := by
  cases a <;> rfl

/-- Searching a concatenation searches the left part first. -/
theorem firstDefined_append (k : String) (l1 l2 : List String) :
    firstDefined k (l1 ++ l2) = orO (firstDefined k l1) (firstDefined k l2) := by
  induction l1 with
  | nil => rfl
  | cons f rest ih =>
    simp only [List.cons_append, firstDefined]
    cases flagDefines k f <;> simp [ih, orO]

/-- Last-wins reading of a flag list: a fresh head flag is consulted only
when no later flag defines the key. -/
theorem lastFlagValue_cons (f : String) (rest : List String) (k : String) :
    lastFlagValue (f :: rest) k = orO (lastFlagValue rest k) (flagDefines k f) := by
  unfold lastFlagValue
  rw [List.reverse_cons, firstDefined_append]
  have : firstDefined k [f] = flagDefines k f := by
    unfold firstDefined
    cases flagDefines k f <;> simp [firstDefined]
  rw [this]

/-- A blank flag defines nothing. -/
theorem flagKV_of_blank (f : String) (h : pyStrip f = "") : flagKV f = none := by
  unfold flagKV
  rw [h]
  rfl

/-- Unfolding of the flag loop at a nonempty list of flags. -/
theorem applyHeaderFlags_cons (init : List (String × String)) (f : String)
    (rest : List String) :
    applyHeaderFlags init (f :: rest) =
      (if pyStrip f = "" then applyHeaderFlags init rest
       else
         match splitFirst ':' (pyStrip f).data with
         | some kv => applyHeaderFlags (dictSet init (pyStrip ⟨kv.1⟩) (pyStrip ⟨kv.2⟩)) rest
         | none =>
           match splitFirst '=' (pyStrip f).data with
           | some kv => applyHeaderFlags (dictSet init (pyStrip ⟨kv.1⟩) (pyStrip ⟨kv.2⟩)) rest
           | none => Except.error flagFormatErrMsg) := rfl

/-- Unfolding of the flag key/value reading. -/
theorem flagKV_eq (f : String) :
    flagKV f =
      (match splitFirst ':' (pyStrip f).data with
       | some kv => some (pyStrip ⟨kv.1⟩, pyStrip ⟨kv.2⟩)
       | none =>
         match splitFirst '=' (pyStrip f).data with
         | some kv => some (pyStrip ⟨kv.1⟩, pyStrip ⟨kv.2⟩)
         | none => none) := rfl

/-- The flag loop consumes a flag that denotes a key/value by assigning
it. -/
theorem applyHeaderFlags_cons_defined (init : List (String × String)) (f : String)
    (rest : List String) (kv : String × String) (h : flagKV f = some kv) :
    applyHeaderFlags init (f :: rest) = applyHeaderFlags (dictSet init kv.1 kv.2) rest := by
  rw [flagKV_eq] at h
  rw [applyHeaderFlags_cons]
  by_cases hf : pyStrip f = ""
  · rw [hf] at h
    cases h
  · rw [if_neg hf]
    rcases h1 : splitFirst ':' (pyStrip f).data with _ | kv1
    · rw [h1] at h
      rcases h2 : splitFirst '=' (pyStrip f).data with _ | kv2
      · rw [h2] at h
        cases h
      · rw [h2] at h
        simp only [Option.some.injEq] at h
        simp only [h1, h2, ← h]
    · rw [h1] at h
      simp only [Option.some.injEq] at h
      simp only [h1, ← h]

/-- The flag loop errors on a flag that is neither blank nor separable. -/
theorem applyHeaderFlags_cons_bad (init : List (String × String)) (f : String)
    (rest : List String) (hf : ¬ pyStrip f = "") (h : flagKV f = none) :
    applyHeaderFlags init (f :: rest) = Except.error flagFormatErrMsg := by
  rw [flagKV_eq] at h
  rw [applyHeaderFlags_cons, if_neg hf]
  rcases h1 : splitFirst ':' (pyStrip f).data with _ | kv1
  · rw [h1] at h
    rcases h2 : splitFirst '=' (pyStrip f).data with _ | kv2
    · simp only [h1, h2]
    · rw [h2] at h
      cases h
  · rw [h1] at h
    cases h

/-- The flag loop skips a blank flag. -/
theorem applyHeaderFlags_cons_blank (init : List (String × String)) (f : String)
    (rest : List String) (hf : pyStrip f = "") :
    applyHeaderFlags init (f :: rest) = applyHeaderFlags init rest := by
  rw [applyHeaderFlags_cons, if_pos hf]

/-- Success form of the flag loop: when every flag is blank or separable,
the result merges the last-written value per key on top of the initial
mapping. -/
theorem applyHeaderFlags_ok (flags : List String) :
    ∀ init, (∀ f ∈ flags, flagOk f = true) →
      ∃ d, applyHeaderFlags init flags = Except.ok d ∧
        ∀ k, dictGet k d = orO (lastFlagValue flags k) (dictGet k init) := by
  induction flags with
  | nil =>
    intro init _
    exact ⟨init, rfl, fun k => by simp [lastFlagValue, firstDefined, orO]⟩
  | cons f rest ih =>
    intro init hall
    by_cases hf : pyStrip f = ""
    · obtain ⟨d, hd, hk⟩ := ih init (fun g hg => hall g (by simp [hg]))
      refine ⟨d, ?_, ?_⟩
      · rw [applyHeaderFlags_cons_blank init f rest hf]
        exact hd
      · intro k
        rw [hk k, lastFlagValue_cons]
        have : flagDefines k f = none := by
          unfold flagDefines
          rw [flagKV_of_blank f hf]
        rw [this, orO_none_right]
    · have hok := hall f (by simp)
      have hkv : ∃ kv, flagKV f = some kv := by
        rcases hkvv : flagKV f with _ | kv
        · rw [flagOk, hkvv] at hok
          simp at hok
          exact absurd hok hf
        · exact ⟨kv, rfl⟩
      obtain ⟨kv, hkv⟩ := hkv
      rw [applyHeaderFlags_cons_defined init f rest kv hkv]
      obtain ⟨d, hd, hdk⟩ := ih (dictSet init kv.1 kv.2) (fun g hg => hall g (by simp [hg]))
      refine ⟨d, hd, fun k => ?_⟩
      rw [hdk k, lastFlagValue_cons, dictGet_dictSet]
      have hfd : flagDefines k f = if kv.1 = k then some kv.2 else none := by
        unfold flagDefines
        rw [hkv]
      rw [hfd]
      cases lastFlagValue rest k with
      | some v => simp [orO]
      | none => by_cases hkk : kv.1 = k <;> simp [orO, hkk]

/-- Error form of the flag loop: a non-blank, non-separable flag anywhere in
the list aborts with the fixed format error. -/
theorem applyHeaderFlags_err (flags : List String) :
    ∀ init, (∃ f ∈ flags, flagOk f = false) →
      applyHeaderFlags init flags = Except.error flagFormatErrMsg := by
  induction flags with
  | nil =>
    intro init h
    simp at h
  | cons f rest ih =>
    intro init h
    obtain ⟨g, hg, hbad⟩ := h
    rcases List.mem_cons.mp hg with rfl | hgr
    · have hf : ¬ pyStrip g = "" := by
        intro hh
        rw [flagOk] at hbad
        rw [hh] at hbad
        simp at hbad
      have hkv : flagKV g = none := by
        rcases hk : flagKV g with _ | kv
        · rfl
        · rw [flagOk, hk] at hbad
          simp at hbad
      exact applyHeaderFlags_cons_bad init g rest hf hkv
    · by_cases hf : pyStrip f = ""
      · rw [applyHeaderFlags_cons_blank init f rest hf]
        exact ih init ⟨g, hgr, hbad⟩
      · rcases hkv : flagKV f with _ | kv
        · exact applyHeaderFlags_cons_bad init f rest hf hkv
        · rw [applyHeaderFlags_cons_defined init f rest kv hkv]
          exact ih _ ⟨g, hgr, hbad⟩

/-- The source brace-item loop coincides with the spec-side item processing
once each part is trimmed. -/
theorem specItems_eq_braceFold (parts : List (List Char)) :
    ∀ acc, specItems acc (parts.map (fun l => pyStrip ⟨l⟩)) = braceFold acc parts := by
  induction parts with
  | nil => intro acc; rfl
  | cons p rest ih =>
    intro acc
    simp only [List.map_cons]
    unfold specItems braceFold
    by_cases hp : pyStrip ⟨p⟩ = ""
    · simp [hp, ih]
    · simp only [if_neg hp]
      rcases h1 : splitFirst ':' (pyStrip ⟨p⟩).data with _ | kv1
      · rcases h2 : splitFirst '=' (pyStrip ⟨p⟩).data with _ | kv2
        · rfl
        · exact ih _
      · exact ih _

/-- Unfolding of `parse_headers` at a present raw string. -/
theorem parse_headers_some (jl le : String → Except String PyVal) (s : String) :
    parse_headers jl le (some s) =
      (if s = "" then Except.ok []
       else
         match jl s with
         | Except.ok data => validateHeaders data
         | Except.error _ =>
           if braceShape (pyStrip s) then
             if pyStrip ⟨((pyStrip s).data.drop 1).dropLast⟩ = "" then Except.ok []
             else braceFold []
               (splitOnChar ',' (pyStrip ⟨((pyStrip s).data.drop 1).dropLast⟩).data)
           else
             match le s with
             | Except.ok data => validateHeaders data
             | Except.error e => Except.error (parseFailMsg e s)) := rfl

/- ### Claim theorems -/

/-- Claim C1 (amended): for every header-spec input on which the JSON parse
raises and whose stripped form is wrapped in braces with no quote character,
`parse_headers` behaves exactly as the spec-side brace-list description:
split the inner content on commas, trim each item, skip empty items, split
each remaining item on the first colon or else the first equals sign, trim
key and value, later items overriding earlier ones; a non-empty item with
neither separator raises a fatal parse error aborting the whole parse. -/
theorem parse_headers_braceList_spec (jl le : String → Except String PyVal)
    (raw je : String) (hj : jl raw = Except.error je)
    (hb : braceShape (pyStrip raw) = true) :
    parse_headers jl le (some raw) = specBraceList (pyStrip raw) := by
  have hraw : ¬ raw = "" := by
    intro h
    rw [h] at hb
    exact absurd hb (by decide)
  rw [parse_headers_some, if_neg hraw]
  simp only [hj, hb, if_true]
  simp only [specBraceList]
  by_cases hi : pyStrip ⟨((pyStrip raw).data.drop 1).dropLast⟩ = ""
  · rw [if_pos hi, if_pos hi]
  · rw [if_neg hi, if_neg hi, specItems_eq_braceFold]

/-- Witness for claim C1: on the spec's own example the brace-list path is
taken and produces exactly the documented mapping. -/
theorem parse_headers_braceList_witness :
    parse_headers jlAlwaysErr leAlwaysErr
        (some "\x7bUser-Agent:Mozilla/5.0,Accept:application/json\x7d") =
      specBraceList (pyStrip "\x7bUser-Agent:Mozilla/5.0,Accept:application/json\x7d") ∧
    parse_headers jlAlwaysErr leAlwaysErr
        (some "\x7bUser-Agent:Mozilla/5.0,Accept:application/json\x7d") =
      Except.ok [("User-Agent", "Mozilla/5.0"), ("Accept", "application/json")] := by
  constructor
  · exact parse_headers_braceList_spec jlAlwaysErr leAlwaysErr _ _ rfl (by decide)
  · rfl

/-- Counterexample for claim C1 as frozen: the input below is not valid
JSON, is wrapped in braces and contains no quote character, and its comma
split contains the item `""` which lacks both separators; the claim demands
a fatal parse error, but `parse_headers` skips the empty item and returns
the mapping. -/
theorem parse_headers_braceList_skips_empty_item_cx :
    parse_headers jlAlwaysErr leAlwaysErr (some "\x7bA:1,\x7d") =
      Except.ok [("A", "1")] := rfl

/-- Claim C2: whenever the JSON parse of the raw header string yields the
object serialising a string-to-string mapping (as `json.loads` does on the
`json.dumps` image of any such mapping), `parse_headers` returns that
mapping unchanged. -/
theorem parse_headers_json_roundtrip (m : List (String × String)) (raw : String)
    (jl le : String → Except String PyVal) (hraw : ¬ raw = "")
    (hnd : (m.map Prod.fst).Nodup)
    (hj : jl raw = Except.ok (PyVal.dict (m.map (fun p => (PyVal.str p.1, PyVal.str p.2))))) :
    parse_headers jl le (some raw) = Except.ok m := by
  rw [parse_headers_some, if_neg hraw]
  simp only [hj]
  simp only [validateHeaders, pyvalStrPairs, strPairs_map]
  rw [normalizePairs_eq_self m hnd]

/-- Witness for claim C2 at a one-entry mapping and its serialisation. -/
theorem parse_headers_json_roundtrip_witness :
    parse_headers jlConstUA leAlwaysErr
        (some "\x7b\"User-Agent\": \"Mozilla/5.0\"\x7d") =
      Except.ok [("User-Agent", "Mozilla/5.0")] :=
  parse_headers_json_roundtrip [("User-Agent", "Mozilla/5.0")] _ jlConstUA leAlwaysErr
    (by decide) (by decide) rfl

/-- Claim C10: when the JSON parse succeeds but the value is not a mapping
with all-string keys and values, `parse_headers` raises the validation
error directly — whatever the literal evaluator would do and whatever shape
the raw text has, the fallback strategies are never consulted. -/
theorem parse_headers_strict_validation_error (raw : String)
    (jl le : String → Except String PyVal) (data : PyVal) (hraw : ¬ raw = "")
    (hj : jl raw = Except.ok data) (hv : pyvalStrPairs data = none) :
    parse_headers jl le (some raw) = Except.error headersValidMsg := by
  rw [parse_headers_some, if_neg hraw]
  simp only [hj]
  simp [validateHeaders, hv]

/-- Witness for claim C10: a valid JSON object with an integer value is
rejected with the validation message even though the literal evaluator
would happily return an empty mapping. -/
theorem parse_headers_strict_validation_witness :
    parse_headers jlNonStrDict leEmptyDict (some "\x7b\"X\": 1\x7d") =
      Except.error headersValidMsg :=
  parse_headers_strict_validation_error _ jlNonStrDict leEmptyDict _
    (by decide) rfl rfl

/-- Claim C7: when all three strategies fail — the JSON parse raises, the
stripped text does not have the quote-free brace shape, and the literal
evaluation raises — `parse_headers` raises an error whose message contains
the newline-flattened 120-character snippet of the input and the literal
substring JSON (within a valid JSON usage example). -/
theorem parse_headers_error_message_spec (raw je ee : String)
    (jl le : String → Except String PyVal) (hraw : ¬ raw = "")
    (hj : jl raw = Except.error je) (hb : braceShape (pyStrip raw) = false)
    (hl : le raw = Except.error ee) :
    parse_headers jl le (some raw) = Except.error (parseFailMsg ee raw) ∧
    strIn (snippet120 raw) (parseFailMsg ee raw) = true ∧
    strIn "JSON" (parseFailMsg ee raw) = true := by
  refine ⟨?_, ?_, ?_⟩
  · rw [parse_headers_some, if_neg hraw]
    simp only [hj, hb]
    simp only [hl, Bool.false_eq_true, if_false]
  · show subOf (snippet120 raw).data (parseFailMsg ee raw).data = true
    simp only [parseFailMsg, strApp_data]
    apply subOf_append_right
    apply subOf_append_right
    apply subOf_append_left
    exact subOf_self _
  · show subOf ("JSON").data (parseFailMsg ee raw).data = true
    simp only [parseFailMsg, strApp_data]
    apply subOf_append_right
    apply subOf_append_left
    decide

/-- Witness for claim C7 at the spec's example input. -/
theorem parse_headers_error_message_witness :
    parse_headers jlAlwaysErr leAlwaysErr (some "not json at all") =
      Except.error (parseFailMsg "invalid syntax (<unknown>, line 1)" "not json at all") ∧
    strIn (snippet120 "not json at all")
        (parseFailMsg "invalid syntax (<unknown>, line 1)" "not json at all") = true ∧
    strIn "JSON"
        (parseFailMsg "invalid syntax (<unknown>, line 1)" "not json at all") = true :=
  parse_headers_error_message_spec "not json at all" _ _ jlAlwaysErr leAlwaysErr
    (by decide) rfl (by decide) rfl

/-- Claim C3 (amended): the `--header` loop merges flags on top of the bulk
mapping. When every flag is blank or carries a separator, the resulting
mapping answers each key with the value of the last flag defining it, else
with the bulk mapping's value — later flags override earlier ones and
override the bulk spec; blank flags are skipped. When some non-blank flag
has neither separator, the loop aborts with the fixed format error. -/
theorem applyHeaderFlags_merge_spec (init : List (String × String)) (flags : List String) :
    ((∀ f ∈ flags, flagOk f = true) →
      ∃ d, applyHeaderFlags init flags = Except.ok d ∧
        ∀ k, dictGet k d = orO (lastFlagValue flags k) (dictGet k init)) ∧
    ((∃ f ∈ flags, flagOk f = false) →
      applyHeaderFlags init flags = Except.error flagFormatErrMsg) :=
  ⟨fun h => applyHeaderFlags_ok flags init h, fun h => applyHeaderFlags_err flags init h⟩

/-- Witness for claim C3: the spec's example `A:1`, `B=2`, `A:3` over an
empty bulk mapping merges to exactly the documented mapping, with the
last-wins lookup property. -/
theorem applyHeaderFlags_merge_witness :
    (∃ d, applyHeaderFlags [] ["A:1", "B=2", "A:3"] = Except.ok d ∧
      ∀ k, dictGet k d = orO (lastFlagValue ["A:1", "B=2", "A:3"] k) (dictGet k [])) ∧
    applyHeaderFlags [] ["A:1", "B=2", "A:3"] = Except.ok [("A", "3"), ("B", "2")] := by
  constructor
  · exact (applyHeaderFlags_merge_spec [] ["A:1", "B=2", "A:3"]).1 (by decide)
  · rfl

/-- Counterexample for claim C3 as frozen: the empty flag value has neither
separator, so the claim demands a fatal error, but the loop skips it and
returns the mapping of the remaining flag. -/
theorem applyHeaderFlags_blank_item_cx :
    applyHeaderFlags [] ["A:1", ""] = Except.ok [("A", "1")] := rfl

/-- Unfolding of the env-file line processing. -/
theorem processEnvLine_eq (env : Env) (line : String) :
    processEnvLine env line =
      (if pyStrip line = "" then env
       else if headIs '#' (pyStrip line) = true then env
       else
         match splitFirst '=' (pyStrip line).data with
         | none => env
         | some kv =>
           dictSetdefault env (pyStrip ⟨kv.1⟩) (stripDQuotes (pyStrip ⟨kv.2⟩))) := rfl

/-- Lookup preservation through one env-file line: a variable that is
already set keeps its value. -/
theorem dictGet_processEnvLine (k v : String) (env : Env) (line : String)
    (h : dictGet k env = some v) : dictGet k (processEnvLine env line) = some v := by
  rw [processEnvLine_eq]
  by_cases h1 : pyStrip line = ""
  · rw [if_pos h1]
    exact h
  · rw [if_neg h1]
    by_cases h2 : headIs '#' (pyStrip line) = true
    · rw [if_pos h2]
      exact h
    · rw [if_neg h2]
      rcases h3 : splitFirst '=' (pyStrip line).data with _ | kv
      · exact h
      · rw [dictGet_dictSetdefault]
        by_cases h4 : pyStrip ⟨kv.1⟩ = k
        · rw [if_pos h4, h4, h]
          rfl
        · rw [if_neg h4]
          exact h

/-- Claim C5: every environment variable that is set before `load_env_file`
runs keeps its exact value afterwards, whatever the file contains — the
loader fills only unset keys and never clears a variable. -/
theorem load_env_file_preserves_existing (fileLines : Option (List String))
    (env : Env) (k v : String) (h : dictGet k env = some v) :
    dictGet k (load_env_file fileLines env) = some v := by
  cases fileLines with
  | none => exact h
  | some ls =>
    show dictGet k (ls.foldl processEnvLine env) = some v
    induction ls generalizing env with
    | nil => exact h
    | cons l rest ih =>
      simp only [List.foldl_cons]
      exact ih (processEnvLine env l) (dictGet_processEnvLine k v env l h)

/-- Witness for claim C5 at the spec's example: a file assigning `API_KEY`
does not override the already-set value. -/
theorem load_env_file_preserves_witness :
    dictGet "API_KEY" (load_env_file (some ["API_KEY=secret"]) [("API_KEY", "live")]) =
      some "live" :=
  load_env_file_preserves_existing (some ["API_KEY=secret"]) [("API_KEY", "live")]
    "API_KEY" "live" rfl

/-- Claim C6: for every parsed extra-header mapping and non-empty api key,
the final header mapping answers `Authorization` with the bearer token
unconditionally — even when the extra headers defined it — answers `Accept`
and `User-Agent` with their supplied values when present and with the
defaults otherwise, and answers every other key exactly as the extra
headers do. -/
theorem finalizeHeaders_lookup_spec (extra : List (String × String))
    (api_key : String) (_hk : ¬ api_key = "") (k : String) :
    dictGet k (finalizeHeaders extra api_key) =
      if k = "Authorization" then some ("Bearer " ++ api_key)
      else if k = "Accept" then some ((dictGet "Accept" extra).getD "application/json")
      else if k = "User-Agent" then some ((dictGet "User-Agent" extra).getD "Mozilla/5.0")
      else dictGet k extra := by
  unfold finalizeHeaders
  by_cases h1 : k = "Authorization"
  · subst h1
    simp [dictGet_dictSet]
  · by_cases h2 : k = "Accept"
    · subst h2
      simp [dictGet_dictSet, dictGet_dictSetdefault]
    · by_cases h3 : k = "User-Agent"
      · subst h3
        simp [dictGet_dictSet, dictGet_dictSetdefault, h1, h2]
      · rw [dictGet_dictSet, if_neg (fun he => h1 he.symm),
          dictGet_dictSetdefault, if_neg (fun he => h3 he.symm),
          dictGet_dictSetdefault, if_neg (fun he => h2 he.symm),
          if_neg h1, if_neg h2, if_neg h3]

/-- Witness for claim C6: with a user-supplied `Authorization` header and a
custom header, the token still wins, the defaults fill in, and the custom
entry is preserved. -/
theorem finalizeHeaders_lookup_witness :
    dictGet "Authorization"
        (finalizeHeaders [("Authorization", "Bearer mine"), ("X-Custom", "1")] "k") =
      some "Bearer k" ∧
    dictGet "Accept"
        (finalizeHeaders [("Authorization", "Bearer mine"), ("X-Custom", "1")] "k") =
      some "application/json" ∧
    dictGet "X-Custom"
        (finalizeHeaders [("Authorization", "Bearer mine"), ("X-Custom", "1")] "k") =
      some "1" := by
  refine ⟨?_, ?_, ?_⟩
  · exact (finalizeHeaders_lookup_spec [("Authorization", "Bearer mine"), ("X-Custom", "1")]
      "k" (by decide) "Authorization").trans (by decide)
  · exact (finalizeHeaders_lookup_spec [("Authorization", "Bearer mine"), ("X-Custom", "1")]
      "k" (by decide) "Accept").trans (by decide)
  · exact (finalizeHeaders_lookup_spec [("Authorization", "Bearer mine"), ("X-Custom", "1")]
      "k" (by decide) "X-Custom").trans (by decide)

/-- Claim C9 (amended): the reported body excerpt is the text with each
newline replaced by a space and both ends trimmed of whitespace, truncated
to 400 characters with a trailing ellipsis appended exactly when that text
exceeds 400 characters, and equal to it otherwise. -/
theorem summarize_body_spec_amended (text : String) :
    summarize_body text 400 = specSummarizeAmended text := rfl

/-- Counterexample for claim C9 as frozen: `summarize_body` does not
whitespace-collapse — two consecutive newlines become two spaces, not
one. -/
theorem summarize_body_collapse_cx :
    summarize_body "a\n\nb" 400 ≠ specSummarize "a\n\nb" := by decide

/-- The WAF diagnostic line differs from every printed line built from a
prefix whose first character is not the arrow that opens it. -/
theorem wafLine_ne_pref (p s : String) (c : Char) (hp : p.data.head? = some c)
    (hc : c ≠ '=') : wafLine ≠ p ++ s :=
  fun h => append_ne_of_head p s wafLine c '=' hp (by decide) hc h.symm

/-- Claim C8: in a probing run (configuration present, model resolved) whose
chat probe returns a response, the WAF/CDN diagnostic line is printed if and
only if the response's content-type contains `text/html` case-insensitively
and its truncated body excerpt contains `blocked` or `request was blocked`
case-insensitively. -/
theorem wafLine_printed_iff (base_url model api_key : String)
    (extra : List (String × String)) (oracle : HttpOracle) (r : HttpResponse)
    (hb : ¬ base_url = "") (hk : ¬ api_key = "") (hm : ¬ model = "")
    (hr : oracle.postChat = HttpResult.ok r) :
    wafLine ∈ (mainAfterHeaders base_url model api_key extra oracle).printed ↔
      wafHeuristic r.contentType r.body = true := by
  have n1 : wafLine ≠ "base_url: " ++ base_url :=
    wafLine_ne_pref _ _ 'b' (by decide) (by decide)
  have n2 : ∀ s, wafLine ≠ "model: " ++ s :=
    fun s => wafLine_ne_pref _ s 'm' (by decide) (by decide)
  have n3 : ∀ s, wafLine ≠ "extra_headers: " ++ s :=
    fun s => wafLine_ne_pref _ s 'e' (by decide) (by decide)
  have n7 : ∀ s, wafLine ≠ "/chat/completions status: " ++ s :=
    fun s => wafLine_ne_pref _ s '/' (by decide) (by decide)
  have n8 : ∀ s, wafLine ≠ "/chat/completions content-type: " ++ s :=
    fun s => wafLine_ne_pref _ s '/' (by decide) (by decide)
  have n9 : ∀ s, wafLine ≠ "/chat/completions body(head): " ++ s :=
    fun s => wafLine_ne_pref _ s '/' (by decide) (by decide)
  rcases hg : oracle.getModels with rm | em
  · have n4 : ∀ s, wafLine ≠ "/models status: " ++ s :=
      fun s => wafLine_ne_pref _ s '/' (by decide) (by decide)
    have n5 : ∀ s, wafLine ≠ "/models content-type: " ++ s :=
      fun s => wafLine_ne_pref _ s '/' (by decide) (by decide)
    have n6 : ∀ s, wafLine ≠ "/models body(head): " ++ s :=
      fun s => wafLine_ne_pref _ s '/' (by decide) (by decide)
    simp only [mainAfterHeaders, hg, hr, if_neg hb, if_neg hk, if_neg hm]
    by_cases hw : wafHeuristic r.contentType r.body = true
    · rw [if_pos hw]
      exact iff_of_true (by simp) hw
    · rw [if_neg hw]
      refine iff_of_false ?_ hw
      intro hmem
      simp only [List.mem_append, List.mem_cons, List.not_mem_nil, or_false] at hmem
      rcases hmem with ((h | h | h) | (h | h | h)) | (h | h | h) <;>
        first
        | exact n1 h
        | exact n2 _ h
        | exact n3 _ h
        | exact n4 _ h
        | exact n5 _ h
        | exact n6 _ h
        | exact n7 _ h
        | exact n8 _ h
        | exact n9 _ h
  · have n4 : ∀ s, wafLine ≠ "/models error: " ++ s :=
      fun s => wafLine_ne_pref _ s '/' (by decide) (by decide)
    simp only [mainAfterHeaders, hg, hr, if_neg hb, if_neg hk, if_neg hm]
    by_cases hw : wafHeuristic r.contentType r.body = true
    · rw [if_pos hw]
      exact iff_of_true (by simp) hw
    · rw [if_neg hw]
      refine iff_of_false ?_ hw
      intro hmem
      simp only [List.mem_append, List.mem_cons, List.not_mem_nil, or_false] at hmem
      rcases hmem with ((h | h | h) | h) | (h | h | h) <;>
        first
        | exact n1 h
        | exact n2 _ h
        | exact n3 _ h
        | exact n4 _ h
        | exact n7 _ h
        | exact n8 _ h
        | exact n9 _ h

/-- Witness for claim C8: an HTML block page triggers the diagnostic line, a
JSON response mentioning the word blocked does not. -/
theorem wafLine_printed_witness :
    wafLine ∈ (mainAfterHeaders "https://api.example.com/v1" "m" "k" [] oracleHtml).printed ∧
    wafLine ∉ (mainAfterHeaders "https://api.example.com/v1" "m" "k" [] oracleJson).printed := by
  constructor
  · exact (wafLine_printed_iff "https://api.example.com/v1" "m" "k" [] oracleHtml
      respHtmlBlocked (by decide) (by decide) (by decide) rfl).mpr (by decide)
  · intro hmem
    exact absurd ((wafLine_printed_iff "https://api.example.com/v1" "m" "k" [] oracleJson
      respJsonBlocked (by decide) (by decide) (by decide) rfl).mp hmem) (by decide)

/-- Claim C4 (amended): provided the header specification and the `--header`
flags parse successfully (so that the run reaches the configuration checks),
a run whose base URL resolves to the empty string, or whose api key resolves
to the empty string, exits with code 2, prints exactly the matching guidance
message, and attempts no HTTP request. -/
theorem mainModel_missing_config_exit2 (args : Args) (env0 : Env)
    (envFile : Option (List String)) (gp : String)
    (jl le : String → Except String PyVal) (oracle : HttpOracle) (res : MainResult)
    (h : mainModel args env0 envFile gp jl le oracle = Except.ok res)
    (hcond : resolvedBaseUrl args env0 envFile = "" ∨
      resolvedApiKey args env0 envFile gp = "") :
    res.exitCode = 2 ∧ res.requests = [] ∧
      (res.printed = [noBaseUrlMsg] ∨ res.printed = [noApiKeyMsg]) := by
  unfold mainModel at h
  rcases hp : parse_headers jl le (resolvedRawHeaders args env0 envFile) with e | extra0
  · rw [hp] at h
    simp at h
  · rw [hp] at h
    replace h :
        (match applyHeaderFlags extra0 args.header with
          | Except.error e => Except.error e
          | Except.ok extra =>
            Except.ok (mainAfterHeaders (resolvedBaseUrl args env0 envFile)
              (resolvedModel args env0 envFile)
              (resolvedApiKey args env0 envFile gp) extra oracle)) = Except.ok res := h
    rcases hf : applyHeaderFlags extra0 args.header with e | extra
    · rw [hf] at h
      simp at h
    · rw [hf] at h
      replace h :
          Except.ok (mainAfterHeaders (resolvedBaseUrl args env0 envFile)
            (resolvedModel args env0 envFile)
            (resolvedApiKey args env0 envFile gp) extra oracle) = Except.ok res := h
      cases h
      by_cases hb : resolvedBaseUrl args env0 envFile = ""
      · refine ⟨?_, ?_, Or.inl ?_⟩ <;> simp [mainAfterHeaders, hb]
      · rcases hcond with hb2 | hk
        · exact absurd hb2 hb
        · refine ⟨?_, ?_, Or.inr ?_⟩ <;> simp [mainAfterHeaders, hb, hk]

/-- Witness for claim C4: with no `--base-url` flag, an empty environment
and parsable (absent) headers, the run exits with code 2 after printing the
guidance message, attempting no HTTP request. -/
theorem mainModel_missing_config_witness :
    ∃ res, mainModel wArgs [] none "" jlAlwaysErr leAlwaysErr cxOracle = Except.ok res ∧
      res.exitCode = 2 ∧ res.requests = [] ∧ res.printed = [noBaseUrlMsg] := by
  refine ⟨⟨2, [noBaseUrlMsg], [], none⟩, rfl, ?_⟩
  have h := mainModel_missing_config_exit2 wArgs [] none "" jlAlwaysErr leAlwaysErr
    cxOracle ⟨2, [noBaseUrlMsg], [], none⟩ rfl (Or.inl rfl)
  exact ⟨h.1, h.2.1, rfl⟩

/-- Counterexample for claim C4 as frozen: with an empty base URL but an
unparseable `--headers` value, the program does not print the guidance
message and exit with code 2 — the header parse error aborts the run first
(in Python, an uncaught ValueError), because the header parsing of lines
99-110 runs before the configuration checks of lines 112-117. -/
theorem mainModel_missing_config_cx :
    mainModel cxArgs [] none "" jlAlwaysErr leAlwaysErr cxOracle =
      Except.error
        (parseFailMsg "invalid syntax (<unknown>, line 1)" "not json at all") := rfl
